import Mathlib

/-!
# Verification of the GiftUpgradeChecker polling core (`parser.py`)

A shallow embedding of `UniversalGiftParser` and `ParserManager` from
`src/parser.py`, together with proofs about the fetch retry policy, the
continuous-discovery ("new") poll loop, the range-mode batch loop, and the
manager's start/stop bookkeeping.

Conventions of the embedding:
* Machine integers are `Nat` (quantities and indices in the source are
  non-negative Python ints produced from digit strings and `range`).
* `asyncio.sleep` calls are recorded as data (lists of delay amounts) where a
  claim talks about them, and dropped otherwise.
* Network I/O is scripted: a fetch script maps the attempt (or probed index /
  probe step) to the outcome the network would produce.
* Python dicts are modelled as association lists; `asyncio`'s task objects are
  identified by a ghost run id.
-/

namespace GiftChecker

/-- The field map produced by `parse_html` (lines 85-91 of `parser.py`):
owner/model/backdrop/symbol as optional strings and the parsed quantity. -/
structure GiftInfo where
  owner : Option String
  model : Option String
  backdrop : Option String
  symbol : Option String
  quantity : Option Nat
  deriving Repr, DecidableEq

/-- A fully stamped item as returned by `fetch_html` on success: the parse
result plus the `url`/`num`/`source` keys added at lines 46-48. -/
structure Item where
  info : GiftInfo
  url : String
  num : Nat
  source : String
  deriving Repr, DecidableEq

/-- The quantity of an item, defaulting to 0 when the extractor produced none
(only used for items whose quantity is known to be present). -/
def Item.qtyD (it : Item) : Nat := it.info.quantity.getD 0

/-! ## Quantity parsing (`parse_html`, lines 76-83)

```python
qty_str = data.get("Quantity", "")
quantity: Optional[int] = None
if qty_str:
    part = qty_str.split("/")[0]
    num_str = "".join(ch for ch in part if ch.isdigit())
    if num_str:
        quantity = int(num_str)
```
We model the quantity string as a `List Char`. `qty_str.split("/")[0]` is the
prefix before the first `/`; the comprehension keeps every digit character of
that prefix; `int` on a non-empty ASCII digit string is base-10 evaluation. -/

/-- Base-10 value of a digit-character list, as `int(num_str)` computes it. -/
def digitsToNat (l : List Char) : Nat :=
  l.foldl (fun acc c => acc * 10 + (c.toNat - 48)) 0

/-- The quantity parsing of `parse_html` lines 77-83: split off the part before
the first `/`, keep its digit characters, and evaluate them in base 10;
`none` when the string is empty or holds no digit before the first `/`.
Total by construction: no exception can escape. -/
def parse_quantity (qty_str : List Char) : Option Nat :=
  if qty_str = [] then none
  else
    let part := qty_str.takeWhile (fun c => c ≠ '/')
    let num_str := part.filter (fun c => c.isDigit)
    if num_str = [] then none
    else some (digitsToNat num_str)

/-- Modelled from the spec: "the leading run of digits found before the first
`/`" — take the part before the first `/`, then its *leading* digit run. -/
def spec_leading_quantity (qty_str : List Char) : Option Nat :=
  let lead := (qty_str.takeWhile (fun c => c ≠ '/')).takeWhile (fun c => c.isDigit)
  if lead = [] then none else some (digitsToNat lead)

/-- Direct recursion collecting every digit character before the first `/`;
used to state the amended C5 independently of `takeWhile`/`filter`. -/
def allDigitsBeforeSlash : List Char → List Char
  | [] => []
  | c :: rest =>
    if c = '/' then []
    else if c.isDigit then c :: allDigitsBeforeSlash rest
    else allDigitsBeforeSlash rest

/-! ## `fetch_html` (lines 25-60): retry loop with linear backoff

The scripted outcome of one HTTP attempt. `ok g` is a 200 response whose body
parses to `g` (`none` = the `tgme_gift_table` marker is missing, i.e. a
structural mismatch); `notFound` is a 404; `badStatus`, `timeout` and
`transportError` are the three transient branches of the source. -/
inductive AttemptOutcome where
  | ok (parsed : Option GiftInfo)
  | notFound
  | badStatus (code : Nat)
  | timeout
  | transportError
  deriving Repr, DecidableEq

/-- The outcomes retried by `fetch_html`: non-200/404 status, timeout,
transport error. -/
def AttemptOutcome.isTransient : AttemptOutcome → Bool
  | .badStatus _ => true
  | .timeout => true
  | .transportError => true
  | _ => false

/-- One run of the `for attempt in range(retry_attempts)` loop of `fetch_html`
starting at attempt index `attempt`. Returns `(result, requests, delays)`:
the value returned to the caller, the number of HTTP requests issued, and the
list of `asyncio.sleep` amounts, in order (the sleep after a failed attempt
`a` is `retry_delay * (a + 1)` and is skipped on the last attempt). -/
def fetchHtmlFrom (retry_attempts retry_delay : Nat)
    (script : Nat → AttemptOutcome) (stamp : GiftInfo → Item) :
    Nat → Option Item × Nat × List Nat
  | attempt =>
    if _h : attempt < retry_attempts then
      match script attempt with
      | .notFound => (none, 1, [])
      | .ok none => (none, 1, [])
      | .ok (some g) => (some (stamp g), 1, [])
      | .badStatus _ | .timeout | .transportError =>
        let r := fetchHtmlFrom retry_attempts retry_delay script stamp (attempt + 1)
        (r.1, r.2.1 + 1,
          (if attempt < retry_attempts - 1 then [retry_delay * (attempt + 1)] else [])
            ++ r.2.2)
    else (none, 0, [])
  termination_by attempt => retry_attempts - attempt

/-- `fetch_html` as configured in `__init__`: `retry_attempts = 3`,
`retry_delay = 1`, starting at attempt 0. `stamp` adds the `url`/`num`/`source`
keys of lines 46-48 to a successful parse. -/
def fetch_html (script : Nat → AttemptOutcome) (stamp : GiftInfo → Item) :
    Option Item × Nat × List Nat :=
  fetchHtmlFrom 3 1 script stamp 0

/-! ## Continuous-discovery mode (`run_new_mode`, lines 112-169)

The method consists of a *seeking* `while` loop (lines 122-134: advance
`self.num` until a probe yields an item with a positive quantity, emit it and
record its quantity) followed by the *tracking* `while` loop (lines 144-169:
probe `last_quantity + 1`; on a strictly greater quantity emit and advance the
high-water mark, otherwise bump the consecutive-empty counter, resetting it at
the 50 threshold). We model one iteration of whichever loop is current as a
`step` on the poller's mutable fields, fed the scripted result of its
`fetch_html` call, and a whole run as iterating `step` along a script indexed
by the probe step (`is_running` going false merely truncates the iteration,
which the fuel argument captures). -/

/-- Which `while` loop of `run_new_mode` is executing. -/
inductive Phase where
  | seeking
  | tracking
  deriving Repr, DecidableEq

/-- The mutable fields of `UniversalGiftParser` that `run_new_mode` touches,
plus the loop-local `consecutive_empty` counter. -/
structure PollerState where
  num : Nat
  last_quantity : Nat
  current_info : Option Item
  phase : Phase
  consecutive_empty : Nat
  deriving Repr, DecidableEq

/-- Fresh parser state as set up by `__init__` (lines 13-23) when
`run_new_mode` begins: cursor at `start_num`, `last_quantity = 0`, no
`current_info`, the seeking loop about to run. -/
def initState (start_num : Nat) : PollerState :=
  { num := start_num
    last_quantity := 0
    current_info := none
    phase := .seeking
    consecutive_empty := 0 }

/-- `max_consecutive_empty` from line 142. -/
def max_consecutive_empty : Nat := 50

/-- One loop iteration of `run_new_mode`, given the result `info` of the
iteration's `fetch_html` call: the updated state and the item emitted to the
sink (`update_callback`), if any.
Seeking (lines 122-134): a present item with quantity `> 0` is emitted,
becomes `current_info`, sets `last_quantity` and enters tracking; anything
else advances the cursor. Tracking (lines 144-169): a present quantity
strictly above `last_quantity` is emitted, becomes `current_info`, advances
the high-water mark and clears the empty counter; anything else increments the
counter, which resets to 0 on reaching the threshold (line 164-167). -/
def step (s : PollerState) (info : Option Item) : PollerState × Option Item :=
  match s.phase with
  | .seeking =>
    match info with
    | some it =>
      match it.info.quantity with
      | some q =>
        if q > 0 then
          ({ s with last_quantity := q, current_info := some it,
                    phase := .tracking }, some it)
        else ({ s with num := s.num + 1 }, none)
      | none => ({ s with num := s.num + 1 }, none)
    | none => ({ s with num := s.num + 1 }, none)
  | .tracking =>
    let bump (s : PollerState) : PollerState :=
      let ce := s.consecutive_empty + 1
      { s with consecutive_empty := if ce ≥ max_consecutive_empty then 0 else ce }
    match info with
    | some it =>
      match it.info.quantity with
      | some q =>
        if q > s.last_quantity then
          ({ s with last_quantity := q, current_info := some it,
                    consecutive_empty := 0 }, some it)
        else (bump s, none)
      | none => (bump s, none)
    | none => (bump s, none)

/-- Run `fuel` iterations of `run_new_mode` from state `s`, the `i`-th overall
iteration receiving the scripted fetch result `script i`. Returns the final
state and the list of items emitted to the sink, in order. -/
def runFrom (script : Nat → Option Item) : Nat → Nat → PollerState →
    PollerState × List Item
  | 0, _, s => (s, [])
  | fuel + 1, i, s =>
    let (s', e) := step s (script i)
    let (sf, rest) := runFrom script fuel (i + 1) s'
    (sf, e.toList ++ rest)

/-- A whole (possibly truncated) `run_new_mode` execution on a fresh parser:
`fuel` loop iterations against the scripted fetch results. -/
def run_new_mode (script : Nat → Option Item) (fuel start_num : Nat) :
    PollerState × List Item :=
  runFrom script fuel 0 (initState start_num)

/-- `IncrFrom n qs`: every element of `qs` exceeds its predecessor, the first
exceeding `n` — the strict high-water-mark chain of continuous mode. -/
def IncrFrom : Nat → List Nat → Prop
  | _, [] => True
  | n, q :: rest => n < q ∧ IncrFrom q rest

/-- The last element of a list, or `d` when it is empty. -/
def lastD (d : Nat) : List Nat → Nat
  | [] => d
  | q :: rest => lastD q rest

/-- The strict lower bound the next emission of `run_new_mode` must exceed:
0 while seeking (line 124 demands `quantity > 0`), the current high-water
mark while tracking (line 151 demands `qty > self.last_quantity`). -/
def phaseBound (s : PollerState) : Nat :=
  match s.phase with
  | .seeking => 0
  | .tracking => s.last_quantity

/-! ## Range mode (`run_range_mode`, lines 171-209, and
`fetch_batch_concurrent`, lines 93-110)

Range mode is scripted at the level of whole-index fetch outcomes: `script n`
is the parse result that `fetch_html` would return for index `n` (`none`
covering 404, exhausted retries and structural mismatch alike — all of which
`fetch_html` collapses to `None`). `fetch_html` stamps a success with its
`url`, `num` and `source` before returning (lines 46-48). `asyncio.gather`
returns its results in the order the tasks were submitted, so
`fetch_batch_concurrent` keeps the ascending order of `numbers` and only drops
the `None`s (lines 101-110). -/

/-- The result of one whole `fetch_html` call for index `n` in range mode,
stamped as lines 46-48 do. -/
def fetch_result (source : String) (urlOf : Nat → String)
    (script : Nat → Option GiftInfo) (n : Nat) : Option Item :=
  (script n).map fun g => { info := g, url := urlOf n, num := n, source := source }

/-- `fetch_batch_concurrent` (lines 93-110): fetch every index of `numbers`;
`asyncio.gather` keeps submission order, and the loop of lines 105-108 keeps
exactly the successful (`dict`, i.e. `some`) results in that order. -/
def fetch_batch_concurrent (fetchR : Nat → Option Item) (numbers : List Nat) :
    List Item :=
  (numbers.map fetchR).filterMap id

/-- Iteration worker for `pyRange`: emit `start`, advance by `step`, stop at
`stop`. For `step ≥ 1` a fuel of `stop - start` is enough, since each
iteration shrinks `stop - start` by at least one. -/
def pyRangeAux (step : Nat) : Nat → Nat → Nat → List Nat
  | 0, _, _ => []
  | fuel + 1, start, stop =>
    if start < stop then start :: pyRangeAux step fuel (start + step) stop
    else []

/-- Python's `range(start, stop, step)` for a positive step (the source only
uses `range(start, end + 1, batch_size)` with `batch_size = 20`; Python
rejects `step = 0`, which we render as the empty list). -/
def pyRange (start stop step : Nat) : List Nat :=
  if 0 < step then pyRangeAux step (stop - start) start stop else []

/-- Everything `run_range_mode` shows to the outside world: the `numbers`
lists submitted per batch, the items handed to `update_callback` in order, the
`(parsed, total)` arguments of every `progress_callback` invocation in order,
and the final value of `parsed`. -/
structure RangeResult where
  batches : List (List Nat)
  emitted : List Item
  progressCalls : List (Nat × Nat)
  parsed : Nat
  deriving Repr, DecidableEq

/-- The `for batch_start in range(start, end + 1, batch_size)` loop of
`run_range_mode` (lines 184-204) over the remaining batch starts, with the
running `parsed` counter: each batch covers
`[batch_start, min (batch_start + batch_size - 1) e]`, its successful results
are emitted in order and counted, then `progress_callback(parsed, total)`
fires. -/
def runBatches (fetchR : Nat → Option Item) (e total batch_size : Nat) :
    List Nat → Nat → RangeResult
  | [], parsed =>
    { batches := [], emitted := [], progressCalls := [], parsed := parsed }
  | bs :: rest, parsed =>
    let batch_end := min (bs + batch_size - 1) e
    let numbers := List.range' bs (batch_end + 1 - bs)
    let results := fetch_batch_concurrent fetchR numbers
    let parsed' := parsed + results.length
    let r := runBatches fetchR e total batch_size rest parsed'
    { batches := numbers :: r.batches
      emitted := results ++ r.emitted
      progressCalls := (parsed', total) :: r.progressCalls
      parsed := r.parsed }

/-- `run_range_mode` (lines 171-209) with the stop flag never set: `total =
end - start + 1`, `batch_size = max_concurrent * 2`, batches walked in
ascending order, and one final `progress_callback(parsed, total)` after the
loop (lines 206-207). -/
def run_range_mode (source : String) (urlOf : Nat → String)
    (script : Nat → Option GiftInfo) (start e max_concurrent : Nat) :
    RangeResult :=
  let total := e - start + 1
  let batch_size := max_concurrent * 2
  let r := runBatches (fetch_result source urlOf script) e total batch_size
    (pyRange start (e + 1) batch_size) 0
  { r with progressCalls := r.progressCalls ++ [(r.parsed, total)] }

/-! ### Range mode with a fallible sink

Line 196 calls `await update_callback(info)` with no surrounding
`try`/`except`, so a fault raised by the sink unwinds the whole coroutine.
We thread the sink's `Except` through the loop to show exactly that. -/

/-- The `for info in results` loop of lines 195-197 with a fallible sink:
each item is handed to the sink in order; a raised fault aborts the loop
(and, below, the whole run) because nothing catches it. Returns the number of
items delivered on success. -/
def emitAll (sink : Item → Except String Unit) : List Item → Except String Nat
  | [] => .ok 0
  | it :: rest => do
    _ ← sink it
    let n ← emitAll sink rest
    .ok (n + 1)

/-- `runBatches` with a fallible sink: a sink fault inside a batch propagates
out of `run_range_mode` (there is no handler on the path from line 196 to the
caller), abandoning the remaining items and batches. -/
def runBatchesE (fetchR : Nat → Option Item) (sink : Item → Except String Unit)
    (e total batch_size : Nat) : List Nat → Nat → Except String RangeResult
  | [], parsed =>
    .ok { batches := [], emitted := [], progressCalls := [], parsed := parsed }
  | bs :: rest, parsed => do
    let batch_end := min (bs + batch_size - 1) e
    let numbers := List.range' bs (batch_end + 1 - bs)
    let results := fetch_batch_concurrent fetchR numbers
    let delivered ← emitAll sink results
    let parsed' := parsed + delivered
    let r ← runBatchesE fetchR sink e total batch_size rest parsed'
    .ok { batches := numbers :: r.batches
          emitted := results ++ r.emitted
          progressCalls := (parsed', total) :: r.progressCalls
          parsed := r.parsed }

/-- `run_range_mode` with a fallible caller-supplied sink. -/
def run_range_modeE (source : String) (urlOf : Nat → String)
    (script : Nat → Option GiftInfo) (sink : Item → Except String Unit)
    (start e max_concurrent : Nat) : Except String RangeResult := do
  let total := e - start + 1
  let batch_size := max_concurrent * 2
  let r ← runBatchesE (fetch_result source urlOf script) sink e total batch_size
    (pyRange start (e + 1) batch_size) 0
  .ok { r with progressCalls := r.progressCalls ++ [(r.parsed, total)] }

/-! ### Continuous mode with a fallible sink

`run_new_mode` likewise calls `await update_callback(info)` bare, at line 127
(seeking) and line 155 (tracking): a fault raised by the sink unwinds the
whole coroutine there too, abandoning every subsequent probe. -/

/-- `runFrom` with a fallible sink: each emitted item is handed to the sink
at the moment of emission (lines 127/155); a raised fault aborts the
remaining iterations because nothing on the path to the caller catches it. -/
def runFromE (script : Nat → Option Item) (sink : Item → Except String Unit) :
    Nat → Nat → PollerState → Except String (PollerState × List Item)
  | 0, _, s => .ok (s, [])
  | fuel + 1, i, s =>
    match (step s (script i)).2 with
    | some it => do
      _ ← sink it
      let r ← runFromE script sink fuel (i + 1) (step s (script i)).1
      .ok (r.1, it :: r.2)
    | none => runFromE script sink fuel (i + 1) (step s (script i)).1

/-- `run_new_mode` with a fallible caller-supplied sink. -/
def run_new_modeE (script : Nat → Option Item)
    (sink : Item → Except String Unit) (fuel start_num : Nat) :
    Except String (PollerState × List Item) :=
  runFromE script sink fuel 0 (initState start_num)

/-! ## `ParserManager` (lines 217-290)

The manager keeps two dicts, `parsers : name → UniversalGiftParser` and
`tasks : name → asyncio.Task`, modelled as association lists with unique keys
(dict insert replaces, `del` removes). A task object is identified by a ghost
`runId` (`asyncio.create_task` hands back a fresh handle) together with its
`done()` flag. The sequential actions the manager performs are recorded as an
event trace: `stopped name id` is the completed `cancel`/`await` of lines
263-267, `spawned name id` the `create_task` of lines 242/247. -/

/-- The per-parser fields that the manager reads (`get_parser_status`) or
writes (`stop`), matching `UniversalGiftParser.__init__`. -/
structure ParserRec where
  source_name : String
  base_url : String
  num : Nat
  last_quantity : Nat
  current_info : Option Item
  is_running : Bool
  mode : String
  deriving Repr, DecidableEq

/-- A fresh `UniversalGiftParser(source_name, base_url, start_num)`
(lines 13-23). -/
def mkParser (source_name base_url : String) (start_num : Nat) : ParserRec :=
  { source_name := source_name
    base_url := base_url
    num := start_num
    last_quantity := 0
    current_info := none
    is_running := false
    mode := "new" }

/-- An `asyncio.Task` handle: its identity and its `done()` flag. -/
structure TaskRec where
  runId : Nat
  done : Bool
  deriving Repr, DecidableEq

/-- Lifecycle events of the manager, for ordering assertions. -/
inductive MEvent where
  | stopped (name : String) (runId : Nat)
  | spawned (name : String) (runId : Nat)
  deriving Repr, DecidableEq

/-- Dict lookup on an association list. -/
def lookupA {α : Type} (k : String) : List (String × α) → Option α
  | [] => none
  | (k', v) :: rest => if k' = k then some v else lookupA k rest

/-- Dict update `d[k] = v`: replace the binding of `k` in place (Python dicts
keep the key's insertion-order slot on update), appending when absent. -/
def insertA {α : Type} (k : String) (v : α) : List (String × α) →
    List (String × α)
  | [] => [(k, v)]
  | (k', v') :: rest =>
    if k' = k then (k, v) :: rest else (k', v') :: insertA k v rest

/-- Dict deletion `del d[k]`. -/
def removeA {α : Type} (k : String) (l : List (String × α)) :
    List (String × α) :=
  l.filter (fun p => p.1 ≠ k)

/-- `ParserManager` state: the two dicts plus the ghost counter supplying
fresh task identities. -/
structure Manager where
  parsers : List (String × ParserRec)
  tasks : List (String × TaskRec)
  nextId : Nat
  deriving Repr, DecidableEq

/-- `ParserManager()` (lines 219-221). -/
def mkManager : Manager := { parsers := [], tasks := [], nextId := 0 }

/-- `addParser` (lines 223-227): create the parser only when the name is not
yet registered. -/
def addParser (m : Manager) (source_name base_url : String)
    (start_num : Nat) : Manager :=
  match lookupA source_name m.parsers with
  | some _ => m
  | none =>
    { m with parsers :=
        insertA source_name (mkParser source_name base_url start_num) m.parsers }

/-- `stopParser` (lines 256-269): set the parser's `is_running` flag to
`False` when the name is registered (`UniversalGiftParser.stop`, lines
211-214); when a task is recorded, cancel it, await it, and delete the
handle, which we log as a `stopped` event. Total: no branch raises. -/
def stopParser (m : Manager) (source_name : String) : Manager × List MEvent :=
  let m₁ :=
    match lookupA source_name m.parsers with
    | some p =>
      { m with parsers :=
          insertA source_name { p with is_running := false } m.parsers }
    | none => m
  match lookupA source_name m₁.tasks with
  | some t =>
    ({ m₁ with tasks := removeA source_name m₁.tasks },
      [MEvent.stopped source_name t.runId])
  | none => (m₁, [])

/-- `startParser` (lines 229-254): `ValueError` when the name is
unregistered; otherwise, when a task is already recorded, fully run
`stopParser` (awaited, line 238) *before* dispatching on the mode and
creating the new task. The new run is modelled by its fresh task handle and
`spawned` event. Modes other than `"new"`/`"range"` raise `ValueError`
(line 251). -/
def startParser (m : Manager) (source_name mode : String) :
    Except String (Manager × List MEvent) :=
  match lookupA source_name m.parsers with
  | none => .error ("Parser " ++ source_name ++ " not found")
  | some _ =>
    let (m₁, ev₁) :=
      match lookupA source_name m.tasks with
      | some _ => stopParser m source_name
      | none => (m, [])
    if mode = "new" ∨ mode = "range" then
      .ok ({ m₁ with
              tasks := insertA source_name ⟨m₁.nextId, false⟩ m₁.tasks
              nextId := m₁.nextId + 1 },
        ev₁ ++ [MEvent.spawned source_name m₁.nextId])
    else .error ("Unknown mode: " ++ mode)

/-- The status dict of `get_parser_status` (lines 276-290): for an
unregistered name only `{"status": "not_found"}`; otherwise the full
snapshot, `running` exactly when a not-yet-done task is recorded. -/
structure StatusDict where
  status : String
  mode : Option String := none
  current_num : Option Nat := none
  last_quantity : Option Nat := none
  current_info : Option (Option Item) := none
  deriving Repr, DecidableEq

/-- `get_parser_status` (lines 276-290). -/
def get_parser_status (m : Manager) (source_name : String) : StatusDict :=
  match lookupA source_name m.parsers with
  | none => { status := "not_found" }
  | some p =>
    let is_running :=
      match lookupA source_name m.tasks with
      | some t => !t.done
      | none => false
    { status := if is_running then "running" else "stopped"
      mode := some p.mode
      current_num := some p.num
      last_quantity := some p.last_quantity
      current_info := some p.current_info }

/-! ## Concrete inputs used by witnesses -/

/-- A stamping function for witness instances of `fetch_html`. -/
def stamp0 : GiftInfo → Item :=
  fun g => { info := g, url := "u", num := 0, source := "s" }

/-- A gift record with quantity `q`, for witness scripts. -/
def gift (q : Nat) : GiftInfo :=
  { owner := none, model := none, backdrop := none, symbol := none,
    quantity := some q }

/-- A stamped item with quantity 1 at index 1, for witness scripts. -/
def itemW : Item :=
  { info := gift 1, url := "u", num := 1, source := "s" }

/-! # Theorems -/

/-! ## Fetcher retry policy (C2, C3) -/

lemma fetchHtmlFrom_all_transient (script : Nat → AttemptOutcome)
    (stamp : GiftInfo → Item)
    (h0 : (script 0).isTransient = true) (h1 : (script 1).isTransient = true)
    (h2 : (script 2).isTransient = true) :
    fetch_html script stamp = (none, 3, [1, 2]) := by
  have expand : ∀ i, (script i).isTransient = true →
      ∀ r, fetchHtmlFrom 3 1 script stamp (i + 1) = r →
      (i < 3) →
      fetchHtmlFrom 3 1 script stamp i =
        (r.1, r.2.1 + 1, (if i < 2 then [1 * (i + 1)] else []) ++ r.2.2) := by
    intro i hi r hr hlt
    cases hs : script i <;>
      simp [hs, AttemptOutcome.isTransient] at hi <;>
      rw [fetchHtmlFrom] <;>
      simp [hs, hlt, hr]
  have base : fetchHtmlFrom 3 1 script stamp 3 = (none, 0, []) := by
    rw [fetchHtmlFrom]; simp
  have e2 := expand 2 h2 _ base (by omega)
  have e1 := expand 1 h1 _ e2 (by omega)
  have e0 := expand 0 h0 _ e1 (by omega)
  simpa [fetch_html] using e0

/-- C2: when every attempt's outcome is transient (timeout, transport error,
or a non-2xx status other than 404), `fetch_html` issues exactly 3 requests,
returns Absent (`none`) without raising, and the sleep before attempt `k`
(entry `k - 2` of the recorded delay list) is at least
`retry_delay * (k - 1) = 1 * (k - 1)` seconds. -/
theorem fetch_transient_three_attempts (script : Nat → AttemptOutcome)
    (stamp : GiftInfo → Item) (h : ∀ i, i < 3 → (script i).isTransient = true) :
    fetch_html script stamp = (none, 3, [1, 2]) ∧
    (∀ k, 2 ≤ k → k ≤ 3 →
      1 * (k - 1) ≤ (fetch_html script stamp).2.2.getD (k - 2) 0) := by
  have key := fetchHtmlFrom_all_transient script stamp
    (h 0 (by omega)) (h 1 (by omega)) (h 2 (by omega))
  refine ⟨key, ?_⟩
  intro k hk2 hk3
  rw [key]
  have : k = 2 ∨ k = 3 := by omega
  rcases this with rfl | rfl <;> simp [List.getD]

/-- Witness for C2 at the all-timeouts script. -/
theorem fetch_transient_three_attempts_witness :
    fetch_html (fun _ => .timeout) stamp0 = (none, 3, [1, 2]) ∧
    (∀ k, 2 ≤ k → k ≤ 3 →
      1 * (k - 1) ≤ (fetch_html (fun _ => .timeout) stamp0).2.2.getD (k - 2) 0) :=
  fetch_transient_three_attempts (fun _ => .timeout) stamp0
    (fun i _ => by simp [AttemptOutcome.isTransient])

/-- C3: a 404 on the first attempt makes `fetch_html` return Absent after
exactly one request, with no retry and no backoff sleep. -/
theorem fetch_404_single_attempt (script : Nat → AttemptOutcome)
    (stamp : GiftInfo → Item) (h : script 0 = .notFound) :
    fetch_html script stamp = (none, 1, []) := by
  rw [fetch_html, fetchHtmlFrom]
  simp [h]

/-- Witness for C3 at the constant-404 script. -/
theorem fetch_404_single_attempt_witness :
    fetch_html (fun _ => .notFound) stamp0 = (none, 1, []) :=
  fetch_404_single_attempt (fun _ => .notFound) stamp0 rfl

/-! ## Quantity parsing (C5) -/

/-- Counterexample to C5 as stated: on `"1a2/9"` the code concatenates *all*
digits before the first `/` and parses 12, while the claimed "leading run of
digits" is just `"1"`, i.e. 1. -/
theorem parse_quantity_not_leading_run :
    parse_quantity ['1', 'a', '2', '/', '9'] = some 12 ∧
    spec_leading_quantity ['1', 'a', '2', '/', '9'] = some 1 ∧
    (12 : Nat) ≠ 1 := by
  refine ⟨by decide, by decide, by decide⟩

lemma filter_digits_takeWhile (l : List Char) :
    (l.takeWhile (fun c => c ≠ '/')).filter (fun c => c.isDigit) =
      allDigitsBeforeSlash l := by
  induction l with
  | nil => rfl
  | cons c rest ih =>
    simp only [ne_eq, decide_not] at ih ⊢
    by_cases hc : c = '/'
    · subst hc
      simp [List.takeWhile_cons, allDigitsBeforeSlash]
    · by_cases hd : c.isDigit <;>
        simp [List.takeWhile_cons, allDigitsBeforeSlash, hc, hd, ih]

/-- C5 amended: the parsed quantity is the base-10 value of the concatenation
of *all* digit characters appearing before the first `/` (not merely the
leading digit run); a string with no such digit — in particular the empty
string — parses to `none`, and the parse is a total function (no exception). -/
theorem parse_quantity_all_digits (qty_str : List Char) :
    parse_quantity qty_str =
      if allDigitsBeforeSlash qty_str = [] then none
      else some (digitsToNat (allDigitsBeforeSlash qty_str)) := by
  rw [parse_quantity]
  by_cases hnil : qty_str = []
  · subst hnil; simp [allDigitsBeforeSlash]
  · simp only [hnil, if_false, filter_digits_takeWhile]

/-! ## Continuous mode (C1, C9) -/

lemma step_spec (s : PollerState) (info : Option Item) :
    ((step s info).2 = none ∧
      (step s info).1.last_quantity = s.last_quantity ∧
      (step s info).1.phase = s.phase ∧
      (step s info).1.current_info = s.current_info) ∨
    (∃ it, (step s info).2 = some it ∧
      (step s info).1.last_quantity = it.qtyD ∧
      (step s info).1.phase = .tracking ∧
      phaseBound s < it.qtyD) := by
  cases hp : s.phase
  case seeking =>
    match info with
    | none => left; simp [step, hp]
    | some it =>
      match hq : it.info.quantity with
      | none => left; simp [step, hp, hq]
      | some q =>
        by_cases h0 : q > 0
        · right
          exact ⟨it, by simp [step, hp, hq, h0], by simp [step, hp, hq, h0, Item.qtyD],
            by simp [step, hp, hq, h0], by simp [phaseBound, hp, Item.qtyD, hq]; omega⟩
        · left; simp [step, hp, hq, h0]
  case tracking =>
    match info with
    | none => left; simp [step, hp]
    | some it =>
      match hq : it.info.quantity with
      | none => left; simp [step, hp, hq]
      | some q =>
        by_cases h0 : q > s.last_quantity
        · right
          exact ⟨it, by simp [step, hp, hq, h0], by simp [step, hp, hq, h0, Item.qtyD],
            by simp [step, hp, hq, h0], by simp [phaseBound, hp, Item.qtyD, hq]; omega⟩
        · left; simp [step, hp, hq, h0]

lemma runFrom_chain (script : Nat → Option Item) :
    ∀ fuel i s,
      IncrFrom (phaseBound s) ((runFrom script fuel i s).2.map Item.qtyD) ∧
      (runFrom script fuel i s).1.last_quantity =
        lastD s.last_quantity ((runFrom script fuel i s).2.map Item.qtyD) := by
  intro fuel
  induction fuel with
  | zero => intro i s; exact ⟨trivial, rfl⟩
  | succ fuel ih =>
    intro i s
    have hrun : runFrom script (fuel + 1) i s =
        ((runFrom script fuel (i + 1) (step s (script i)).1).1,
          (step s (script i)).2.toList ++
            (runFrom script fuel (i + 1) (step s (script i)).1).2) := rfl
    have key := ih (i + 1) (step s (script i)).1
    rcases step_spec s (script i) with ⟨he, hlast, hphase, _⟩ |
      ⟨it, he, hlast, hphase, hgt⟩
    · have hbound : phaseBound (step s (script i)).1 = phaseBound s := by
        cases hps : s.phase <;>
          simp [phaseBound, hphase, hps, hlast]
      rw [hrun]
      simp only [he, Option.toList_none, List.nil_append]
      exact ⟨hbound ▸ key.1, by rw [key.2, hlast]⟩
    · rw [hrun]
      simp only [he, Option.toList_some, List.cons_append, List.nil_append,
        List.map_cons]
      have hbound : phaseBound (step s (script i)).1 = it.qtyD := by
        simp [phaseBound, hphase, hlast]
      refine ⟨⟨hgt, hbound ▸ key.1⟩, ?_⟩
      show _ = lastD it.qtyD _
      rw [key.2, hlast]

/-- C1: in continuous mode, for every scripted sequence of fetch results and
every number of loop iterations, the sequence of quantities emitted to the
sink is strictly increasing (each emission strictly exceeds the previous one,
and the first is positive), and after the run `last_quantity` equals the
quantity of the last (i.e. after N emissions, the N-th) emitted item — 0 when
nothing was emitted. -/
theorem new_mode_emissions_increasing (script : Nat → Option Item)
    (fuel start_num : Nat) :
    IncrFrom 0 ((run_new_mode script fuel start_num).2.map Item.qtyD) ∧
    (run_new_mode script fuel start_num).1.last_quantity =
      lastD 0 ((run_new_mode script fuel start_num).2.map Item.qtyD) := by
  have h := runFrom_chain script fuel 0 (initState start_num)
  simpa [run_new_mode, phaseBound, initState] using h

/-- C9: probes whose fetch result is Absent are idempotent on the poller's
emission state — any number of consecutive Absent results leaves
`last_quantity` and `current_info` unchanged and emits nothing, from any
poller state (seeking or tracking). -/
theorem absent_probes_no_emission (fuel i : Nat) (s : PollerState) :
    (runFrom (fun _ => none) fuel i s).1.last_quantity = s.last_quantity ∧
    (runFrom (fun _ => none) fuel i s).1.current_info = s.current_info ∧
    (runFrom (fun _ => none) fuel i s).2 = [] := by
  induction fuel generalizing i s with
  | zero => exact ⟨rfl, rfl, rfl⟩
  | succ fuel ih =>
    have hrun : runFrom (fun _ => none) (fuel + 1) i s =
        ((runFrom (fun _ => none) fuel (i + 1) (step s none).1).1,
          (step s none).2.toList ++
            (runFrom (fun _ => none) fuel (i + 1) (step s none).1).2) := rfl
    have hstep : (step s none).2 = none ∧
        (step s none).1.last_quantity = s.last_quantity ∧
        (step s none).1.current_info = s.current_info := by
      cases hp : s.phase <;> simp [step, hp]
    have key := ih (i + 1) (step s none).1
    rw [hrun]
    simp only [hstep.1, Option.toList_none, List.nil_append]
    exact ⟨key.1.trans hstep.2.1, key.2.1.trans hstep.2.2, key.2.2⟩

/-! ## Range mode (C4, C10) -/

lemma length_fetch_batch (f : Nat → Option Item) (l : List Nat) :
    (fetch_batch_concurrent f l).length = l.countP (fun n => (f n).isSome) := by
  induction l with
  | nil => rfl
  | cons a t ih =>
    simp only [fetch_batch_concurrent, List.map_cons, List.filterMap_cons,
      List.filterMap_map, Function.id_comp] at ih ⊢
    cases hfa : f a
    · simp [hfa, List.countP_cons, ih]
    · simp [hfa, List.countP_cons, ih]

lemma isSome_fetch_result (source : String) (urlOf : Nat → String)
    (script : Nat → Option GiftInfo) (n : Nat) :
    (fetch_result source urlOf script n).isSome = (script n).isSome := by
  simp [fetch_result]

/-- C4: in range mode with `start = 1`, `end = 45`, `max_concurrent = 10`
(batch size 20), exactly three batches are issued, covering `[1,20]`,
`[21,40]` and `[41,45]`; every `progress_callback` invocation (three per-batch
ones and the final one) receives `total = 45`; and the final `parsed` count is
the number of indices in `[1,45]` whose fetch produced a non-Absent result. -/
theorem range_mode_1_45 (source : String) (urlOf : Nat → String)
    (script : Nat → Option GiftInfo) :
    (run_range_mode source urlOf script 1 45 10).batches =
      [List.range' 1 20, List.range' 21 20, List.range' 41 5] ∧
    (∀ c ∈ (run_range_mode source urlOf script 1 45 10).progressCalls,
      c.2 = 45) ∧
    (run_range_mode source urlOf script 1 45 10).progressCalls.length = 4 ∧
    (run_range_mode source urlOf script 1 45 10).parsed =
      (List.range' 1 45).countP (fun n => (script n).isSome) := by
  have hpy : pyRange 1 46 20 = [1, 21, 41] := by decide
  have hsplit : (List.range' 1 45 : List Nat) =
      List.range' 1 20 ++ List.range' 21 20 ++ List.range' 41 5 := by decide
  have hcount : ∀ l : List Nat,
      l.countP (fun n => (fetch_result source urlOf script n).isSome) =
        l.countP (fun n => (script n).isSome) := by
    intro l
    simp only [isSome_fetch_result]
  constructor
  · norm_num [run_range_mode, hpy, runBatches]
  refine ⟨?_, ?_, ?_⟩
  · intro c hc
    norm_num [run_range_mode, hpy, runBatches] at hc
    rcases hc with rfl | rfl | rfl | rfl <;> rfl
  · norm_num [run_range_mode, hpy, runBatches]
  · norm_num [run_range_mode, hpy, runBatches, length_fetch_batch, hcount,
      hsplit, List.countP_append]
    omega

lemma fetch_batch_eq_filterMap (f : Nat → Option Item) (l : List Nat) :
    fetch_batch_concurrent f l = l.filterMap f := by
  simp [fetch_batch_concurrent, List.filterMap_map, Function.id_comp]

lemma map_num_filterMap (source : String) (urlOf : Nat → String)
    (script : Nat → Option GiftInfo) (l : List Nat) :
    (l.filterMap (fetch_result source urlOf script)).map Item.num =
      l.filter (fun n => (script n).isSome) := by
  induction l with
  | nil => rfl
  | cons a t ih =>
    cases hfa : script a <;>
      simp [List.filterMap_cons, List.filter_cons, fetch_result, hfa, ih]

lemma runBatches_emitted (F : Nat → Option Item) (e total bsize : Nat) :
    ∀ (starts : List Nat) (parsed : Nat),
      (runBatches F e total bsize starts parsed).emitted =
        (starts.map (fun bs =>
          fetch_batch_concurrent F
            (List.range' bs (min (bs + bsize - 1) e + 1 - bs)))).flatten := by
  intro starts
  induction starts with
  | nil => intro parsed; rfl
  | cons bs rest ih =>
    intro parsed
    simp only [runBatches, List.map_cons, List.flatten_cons, ih]

lemma pyRangeAux_batches_concat (e bsize : Nat) (hb : 0 < bsize) :
    ∀ (fuel s : Nat), e + 1 - s ≤ fuel →
      ((pyRangeAux bsize fuel s (e + 1)).map (fun bs =>
          List.range' bs (min (bs + bsize - 1) e + 1 - bs))).flatten =
        List.range' s (e + 1 - s) := by
  intro fuel
  induction fuel with
  | zero =>
    intro s hs
    have h0 : e + 1 - s = 0 := by omega
    simp [pyRangeAux, h0]
  | succ fuel ih =>
    intro s hs
    by_cases hlt : s < e + 1
    · rw [pyRangeAux, if_pos hlt]
      simp only [List.map_cons, List.flatten_cons]
      rw [ih (s + bsize) (by omega)]
      by_cases hle : s + bsize ≤ e + 1
      · have hmin : min (s + bsize - 1) e = s + bsize - 1 := by omega
        have hlen : s + bsize - 1 + 1 - s = bsize := by omega
        rw [hmin, hlen]
        have happ := List.range'_append s bsize (e + 1 - (s + bsize)) 1
        simp only [one_mul] at happ
        rw [happ]
        congr 1
        omega
      · have hmin : min (s + bsize - 1) e = e := by omega
        have hrest : e + 1 - (s + bsize) = 0 := by omega
        rw [hmin, hrest]
        simp
    · rw [pyRangeAux, if_neg hlt]
      have h0 : e + 1 - s = 0 := by omega
      simp [h0]

/-- C10: in range mode the items handed to the sink carry exactly the indices
of `[start, end]` whose fetch succeeded, *in ascending index order globally*:
`asyncio.gather` preserves the submission order inside a batch and batches are
walked in ascending order, so the emitted index list equals the ascending
filter of the full range and is strictly increasing. -/
theorem range_mode_emits_ascending (source : String) (urlOf : Nat → String)
    (script : Nat → Option GiftInfo) (start e max_concurrent : Nat)
    (h : 0 < max_concurrent) :
    (run_range_mode source urlOf script start e max_concurrent).emitted.map
        Item.num =
      (List.range' start (e + 1 - start)).filter
        (fun n => (script n).isSome) ∧
    List.Pairwise (· < ·)
      ((run_range_mode source urlOf script start e max_concurrent).emitted.map
        Item.num) := by
  have hb : 0 < max_concurrent * 2 := by omega
  have hmain :
      (run_range_mode source urlOf script start e max_concurrent).emitted.map
          Item.num =
        (List.range' start (e + 1 - start)).filter
          (fun n => (script n).isSome) := by
    have h1 : (run_range_mode source urlOf script start e max_concurrent).emitted
        = (runBatches (fetch_result source urlOf script) e (e - start + 1)
            (max_concurrent * 2)
            (pyRange start (e + 1) (max_concurrent * 2)) 0).emitted := rfl
    have h3 : ∀ bs : Nat, List.map Item.num
        (fetch_batch_concurrent (fetch_result source urlOf script)
          (List.range' bs (min (bs + max_concurrent * 2 - 1) e + 1 - bs))) =
        (List.range' bs (min (bs + max_concurrent * 2 - 1) e + 1 - bs)).filter
          (fun n => (script n).isSome) := by
      intro bs
      rw [fetch_batch_eq_filterMap, map_num_filterMap]
    rw [h1, runBatches_emitted, List.map_flatten, List.map_map,
      ← pyRangeAux_batches_concat e (max_concurrent * 2) hb
        (e + 1 - start) start (le_refl _),
      List.filter_flatten, List.map_map]
    show (List.map _ (pyRange start (e + 1) (max_concurrent * 2))).flatten = _
    rw [pyRange, if_pos hb]
    congr 1
    apply List.map_congr_left
    intro bs _
    simpa [Function.comp] using h3 bs
  refine ⟨hmain, ?_⟩
  rw [hmain]
  exact List.Pairwise.sublist (List.filter_sublist _)
    (List.pairwise_lt_range' _ _)

/-- Witness for C10 at a concrete range and script. -/
theorem range_mode_emits_ascending_witness :
    (0 : Nat) < 1 ∧
    ((run_range_mode "s" (fun _ => "u") (fun _ => some (gift 1)) 1 3 1).emitted.map
        Item.num =
      (List.range' 1 3).filter (fun n => ((fun _ : Nat => some (gift 1)) n).isSome) ∧
    List.Pairwise (· < ·)
      ((run_range_mode "s" (fun _ => "u") (fun _ => some (gift 1)) 1 3 1).emitted.map
        Item.num)) :=
  ⟨Nat.one_pos,
    range_mode_emits_ascending "s" (fun _ => "u") (fun _ => some (gift 1)) 1 3 1
      Nat.one_pos⟩

/-! ## Sink faults (C6) -/

/-- Counterexample to C6 as stated: with one present index and a sink that
raises, the fault is *not* caught at the call site (neither line 196 in range
mode nor lines 127/155 in continuous mode has a `try`/`except`), so the whole
run aborts with the sink's fault instead of logging it and continuing — in
both modes the run fails to produce a normal result. -/
theorem sink_fault_not_caught :
    run_range_modeE "s" (fun _ => "u") (fun _ => some (gift 1))
        (fun _ => .error "boom") 1 1 1 = .error "boom" ∧
    run_new_modeE (fun _ => some itemW) (fun _ => .error "boom") 2 1 =
      .error "boom" :=
  ⟨rfl, rfl⟩

lemma except_bind_ok {α β : Type} (a : α) (f : α → Except String β) :
    (Except.ok a >>= f) = f a := rfl

lemma except_bind_error {α β : Type} (msg : String) (f : α → Except String β) :
    ((Except.error msg : Except String α) >>= f) = Except.error msg := rfl

lemma emitAll_ok (sink : Item → Except String Unit) :
    ∀ l : List Item, (∀ it ∈ l, sink it = .ok ()) →
      emitAll sink l = .ok l.length := by
  intro l
  induction l with
  | nil => intro _; rfl
  | cons a t ih =>
    intro h
    have ha := h a (List.mem_cons_self a t)
    have ht := ih (fun it hit => h it (List.mem_cons_of_mem a hit))
    simp [emitAll, ha, ht, except_bind_ok]

lemma emitAll_error (sink : Item → Except String Unit) :
    ∀ l : List Item, (∃ it ∈ l, sink it ≠ .ok ()) →
      ∃ msg, emitAll sink l = .error msg := by
  intro l
  induction l with
  | nil => rintro ⟨it, hit, _⟩; cases hit
  | cons a t ih =>
    rintro ⟨it, hit, hne⟩
    cases hsa : sink a with
    | error msg => exact ⟨msg, by simp [emitAll, hsa, except_bind_error]⟩
    | ok u =>
      cases u
      rcases List.mem_cons.1 hit with rfl | hmem
      · exact absurd hsa hne
      · obtain ⟨msg, hmsg⟩ := ih ⟨it, hmem, hne⟩
        exact ⟨msg, by simp [emitAll, hsa, hmsg, except_bind_ok,
          except_bind_error]⟩

lemma runBatchesE_error (F : Nat → Option Item)
    (sink : Item → Except String Unit) (e total bsize : Nat) :
    ∀ (starts : List Nat) (parsed : Nat),
      (∃ it ∈ (runBatches F e total bsize starts parsed).emitted,
        sink it ≠ .ok ()) →
      ∃ msg, runBatchesE F sink e total bsize starts parsed = .error msg := by
  intro starts
  induction starts with
  | nil =>
    rintro parsed ⟨it, hit, _⟩
    cases hit
  | cons bs rest ih =>
    rintro parsed ⟨it, hit, hne⟩
    have hem : (runBatches F e total bsize (bs :: rest) parsed).emitted =
        fetch_batch_concurrent F
            (List.range' bs (min (bs + bsize - 1) e + 1 - bs)) ++
          (runBatches F e total bsize rest
            (parsed + (fetch_batch_concurrent F
              (List.range' bs (min (bs + bsize - 1) e + 1 - bs))).length)).emitted :=
      rfl
    rw [hem] at hit
    by_cases hall : ∀ x ∈ fetch_batch_concurrent F
        (List.range' bs (min (bs + bsize - 1) e + 1 - bs)), sink x = .ok ()
    · have hbatch := emitAll_ok sink _ hall
      rcases List.mem_append.1 hit with hin | hin
      · exact absurd (hall it hin) hne
      · obtain ⟨msg, hmsg⟩ := ih _ ⟨it, hin, hne⟩
        refine ⟨msg, ?_⟩
        simp [runBatchesE, hbatch, hmsg, except_bind_ok, except_bind_error]
    · push_neg at hall
      obtain ⟨msg, hmsg⟩ := emitAll_error sink _ hall
      refine ⟨msg, ?_⟩
      simp [runBatchesE, hmsg, except_bind_error]

lemma runFromE_error (script : Nat → Option Item)
    (sink : Item → Except String Unit) :
    ∀ (fuel i : Nat) (s : PollerState),
      (∃ it ∈ (runFrom script fuel i s).2, sink it ≠ .ok ()) →
      ∃ msg, runFromE script sink fuel i s = .error msg := by
  intro fuel
  induction fuel with
  | zero =>
    rintro i s ⟨it, hit, _⟩
    cases hit
  | succ fuel ih =>
    rintro i s ⟨it, hit, hne⟩
    have hrun : (runFrom script (fuel + 1) i s).2 =
        (step s (script i)).2.toList ++
          (runFrom script fuel (i + 1) (step s (script i)).1).2 := rfl
    rw [hrun] at hit
    cases he : (step s (script i)).2 with
    | none =>
      rw [he] at hit
      simp only [Option.toList_none, List.nil_append] at hit
      obtain ⟨msg, hmsg⟩ := ih (i + 1) (step s (script i)).1 ⟨it, hit, hne⟩
      exact ⟨msg, by simp [runFromE, he, hmsg]⟩
    | some it0 =>
      rw [he] at hit
      simp only [Option.toList_some, List.singleton_append] at hit
      cases hs0 : sink it0 with
      | error msg =>
        exact ⟨msg, by simp [runFromE, he, hs0, except_bind_error]⟩
      | ok u =>
        cases u
        rcases List.mem_cons.1 hit with rfl | hmem
        · exact absurd hs0 hne
        · obtain ⟨msg, hmsg⟩ := ih (i + 1) (step s (script i)).1 ⟨it, hmem, hne⟩
          exact ⟨msg, by simp [runFromE, he, hs0, hmsg, except_bind_ok,
            except_bind_error]⟩

/-- C6 amended: a fault raised by the caller-supplied sink is *not* caught at
the call site in either mode — it propagates out of the poll loop and aborts
the whole run with that fault, processing no subsequent probes, items or
batches. Stated for any scripts, range, run length and sinks: if the sink
raises on some item the range run would emit, the range run's outcome is an
error, and likewise for the continuous-mode run. -/
theorem sink_fault_aborts_run (source : String) (urlOf : Nat → String)
    (script : Nat → Option GiftInfo) (sink : Item → Except String Unit)
    (start e max_concurrent : Nat) (scriptN : Nat → Option Item)
    (sinkN : Item → Except String Unit) (fuel start_num : Nat)
    (hrange : ∃ it ∈ (run_range_mode source urlOf script start e
      max_concurrent).emitted, sink it ≠ .ok ())
    (hnew : ∃ it ∈ (run_new_mode scriptN fuel start_num).2,
      sinkN it ≠ .ok ()) :
    (∃ msg, run_range_modeE source urlOf script sink start e max_concurrent =
      .error msg) ∧
    (∃ msg, run_new_modeE scriptN sinkN fuel start_num = .error msg) := by
  constructor
  · obtain ⟨msg, hmsg⟩ := runBatchesE_error (fetch_result source urlOf script)
      sink e (e - start + 1) (max_concurrent * 2)
      (pyRange start (e + 1) (max_concurrent * 2)) 0 hrange
    refine ⟨msg, ?_⟩
    simp [run_range_modeE, hmsg, except_bind_error]
  · exact runFromE_error scriptN sinkN fuel 0 (initState start_num) hnew

/-- Witness for the amended C6 at one present index / one emitting probe and
an always-raising sink, in each mode. -/
theorem sink_fault_aborts_run_witness :
    (∃ it ∈ (run_range_mode "s" (fun _ => "u") (fun _ => some (gift 1))
      1 1 1).emitted, (fun _ : Item => (.error "boom" : Except String Unit)) it ≠
        .ok ()) ∧
    (∃ it ∈ (run_new_mode (fun _ => some itemW) 1 1).2,
      (fun _ : Item => (.error "boom" : Except String Unit)) it ≠ .ok ()) ∧
    (∃ msg, run_range_modeE "s" (fun _ => "u") (fun _ => some (gift 1))
        (fun _ => .error "boom") 1 1 1 = .error msg) ∧
    (∃ msg, run_new_modeE (fun _ => some itemW) (fun _ => .error "boom") 1 1 =
      .error msg) :=
  ⟨⟨{ info := gift 1, url := "u", num := 1, source := "s" },
      List.mem_singleton.mpr rfl, fun h => Except.noConfusion h⟩,
    ⟨itemW, List.mem_singleton.mpr rfl, fun h => Except.noConfusion h⟩,
    sink_fault_aborts_run "s" (fun _ => "u") (fun _ => some (gift 1))
      (fun _ => .error "boom") 1 1 1 (fun _ => some itemW)
      (fun _ => .error "boom") 1 1
      ⟨{ info := gift 1, url := "u", num := 1, source := "s" },
        List.mem_singleton.mpr rfl, fun h => Except.noConfusion h⟩
      ⟨itemW, List.mem_singleton.mpr rfl, fun h => Except.noConfusion h⟩⟩

/-! ## Manager lifecycle (C7, C8) -/

lemma lookupA_insertA_self {α : Type} (k : String) (v : α)
    (l : List (String × α)) : lookupA k (insertA k v l) = some v := by
  induction l with
  | nil => simp [insertA, lookupA]
  | cons q rest ih =>
    obtain ⟨k', v'⟩ := q
    by_cases hk : k' = k
    · simp [insertA, lookupA, hk]
    · simp [insertA, lookupA, hk, ih]

lemma insertA_cancel {α : Type} (k : String) (v : α) :
    ∀ l : List (String × α), lookupA k l = some v → insertA k v l = l := by
  intro l
  induction l with
  | nil => intro h; cases h
  | cons q rest ih =>
    obtain ⟨k', v'⟩ := q
    by_cases hk : k' = k
    · intro h
      simp [lookupA, hk] at h
      simp [insertA, hk, h]
    · intro h
      simp [lookupA, hk] at h
      simp [insertA, hk, ih h]

lemma lookupA_removeA_self {α : Type} (k : String) (l : List (String × α)) :
    lookupA k (removeA k l) = none := by
  induction l with
  | nil => rfl
  | cons q rest ih =>
    obtain ⟨k', v'⟩ := q
    by_cases hk : k' = k
    · simpa [removeA, hk] using ih
    · simpa [removeA, lookupA, hk] using ih

lemma insertA_of_not_mem {α : Type} (k : String) (v : α) :
    ∀ l : List (String × α), lookupA k l = none → insertA k v l = l ++ [(k, v)] := by
  intro l
  induction l with
  | nil => intro _; rfl
  | cons q rest ih =>
    obtain ⟨k', v'⟩ := q
    by_cases hk : k' = k
    · intro h; simp [lookupA, hk] at h
    · intro h
      simp [lookupA, hk] at h
      simp [insertA, hk, ih h]

lemma countP_key_removeA {α : Type} (k : String) (l : List (String × α)) :
    (removeA k l).countP (fun q => q.1 = k) = 0 := by
  rw [List.countP_eq_zero]
  intro a ha
  have := List.of_mem_filter ha
  simpa using this

lemma countP_key_insertA_removeA {α : Type} (k : String) (v : α)
    (l : List (String × α)) :
    (insertA k v (removeA k l)).countP (fun q => q.1 = k) = 1 := by
  rw [insertA_of_not_mem k v _ (lookupA_removeA_self k l),
    List.countP_append, countP_key_removeA]
  simp

lemma startParser_stops_then_spawns (name : String) (mm : Manager)
    (pp : ParserRec) (tt : TaskRec)
    (hp : lookupA name mm.parsers = some pp)
    (ht : lookupA name mm.tasks = some tt) :
    ∃ m₂, startParser mm name "new" =
        .ok (m₂, [MEvent.stopped name tt.runId,
                  MEvent.spawned name mm.nextId]) ∧
      lookupA name m₂.tasks = some ⟨mm.nextId, false⟩ ∧
      m₂.tasks.countP (fun t => t.1 = name) = 1 ∧
      m₂.nextId = mm.nextId + 1 := by
  refine ⟨{ parsers := insertA name { pp with is_running := false } mm.parsers
            tasks := insertA name ⟨mm.nextId, false⟩ (removeA name mm.tasks)
            nextId := mm.nextId + 1 }, ?_, ?_, ?_, rfl⟩
  · simp [startParser, stopParser, hp, ht]
  · exact lookupA_insertA_self _ _ _
  · exact countP_key_insertA_removeA _ _ _

/-- C7: starting a registered source twice in a row without an intervening
stop leaves exactly one task recorded for that source, and the second start's
action trace is exactly "stop and await the first run, then spawn the new
one" — the first run (spawned with id `m.nextId`) is fully stopped before the
second (id `m.nextId + 1`) is created, so at most one run per source is ever
active. -/
theorem start_twice_single_run (m : Manager) (name : String) (p : ParserRec)
    (hreg : lookupA name m.parsers = some p) :
    ∃ m₁ ev₁ m₂,
      startParser m name "new" = .ok (m₁, ev₁) ∧
      ev₁.getLast? = some (MEvent.spawned name m.nextId) ∧
      startParser m₁ name "new" =
        .ok (m₂, [MEvent.stopped name m.nextId,
                  MEvent.spawned name (m.nextId + 1)]) ∧
      lookupA name m₂.tasks = some ⟨m.nextId + 1, false⟩ ∧
      m₂.tasks.countP (fun t => t.1 = name) = 1 := by
  cases htask : lookupA name m.tasks with
  | none =>
    refine ⟨{ m with
                tasks := insertA name ⟨m.nextId, false⟩ m.tasks,
                nextId := m.nextId + 1 },
      [MEvent.spawned name m.nextId], ?_⟩
    obtain ⟨m₂, h2, hlook, hcount, hnext⟩ :=
      startParser_stops_then_spawns name
        { m with
          tasks := insertA name ⟨m.nextId, false⟩ m.tasks,
          nextId := m.nextId + 1 }
        p ⟨m.nextId, false⟩ hreg (lookupA_insertA_self _ _ _)
    exact ⟨m₂, by simp [startParser, hreg, htask], rfl, h2, hlook, hcount⟩
  | some t =>
    refine ⟨{ parsers := insertA name { p with is_running := false } m.parsers
              tasks := insertA name ⟨m.nextId, false⟩ (removeA name m.tasks)
              nextId := m.nextId + 1 },
      [MEvent.stopped name t.runId, MEvent.spawned name m.nextId], ?_⟩
    obtain ⟨m₂, h2, hlook, hcount, hnext⟩ :=
      startParser_stops_then_spawns name
        { parsers := insertA name { p with is_running := false } m.parsers
          tasks := insertA name ⟨m.nextId, false⟩ (removeA name m.tasks)
          nextId := m.nextId + 1 }
        { p with is_running := false } ⟨m.nextId, false⟩
        (lookupA_insertA_self _ _ _) (lookupA_insertA_self _ _ _)
    exact ⟨m₂, by simp [startParser, stopParser, hreg, htask], rfl,
      h2, hlook, hcount⟩

/-- Witness for C7 on a freshly registered one-source manager. -/
theorem start_twice_single_run_witness :
    lookupA "s" (addParser mkManager "s" "u" 1).parsers =
      some (mkParser "s" "u" 1) ∧
    (∃ m₁ ev₁ m₂,
      startParser (addParser mkManager "s" "u" 1) "s" "new" = .ok (m₁, ev₁) ∧
      ev₁.getLast? =
        some (MEvent.spawned "s" (addParser mkManager "s" "u" 1).nextId) ∧
      startParser m₁ "s" "new" =
        .ok (m₂, [MEvent.stopped "s" (addParser mkManager "s" "u" 1).nextId,
                  MEvent.spawned "s"
                    ((addParser mkManager "s" "u" 1).nextId + 1)]) ∧
      lookupA "s" m₂.tasks =
        some ⟨(addParser mkManager "s" "u" 1).nextId + 1, false⟩ ∧
      m₂.tasks.countP (fun t => t.1 = "s") = 1) :=
  ⟨by decide,
    start_twice_single_run (addParser mkManager "s" "u" 1) "s"
      (mkParser "s" "u" 1) (by decide)⟩

/-- Counterexample to the second half of C8 as stated: for a name that was
never registered, `get_parser_status` reports the literal status string
`"not_found"` (line 279), not `"unknown"` as the claim says. -/
theorem status_unregistered_not_unknown :
    (get_parser_status mkManager "ghost").status = "not_found" ∧
    ("not_found" : String) ≠ "unknown" := by
  exact ⟨rfl, by decide⟩

/-- C8 amended: `stop` on a source that was never started (no recorded task,
and its parser — if registered — still has `is_running = False`) is a no-op
returning without error and producing no events; and `status` on a
never-registered name reports `"not_found"` (the code's analogue of the
spec's `unknown`). -/
theorem stop_noop_and_status_not_found (m : Manager) (name₁ name₂ : String)
    (htask : lookupA name₁ m.tasks = none)
    (hflag : ∀ p, lookupA name₁ m.parsers = some p → p.is_running = false)
    (hunreg : lookupA name₂ m.parsers = none) :
    stopParser m name₁ = (m, []) ∧
    (get_parser_status m name₂).status = "not_found" := by
  constructor
  · cases hp : lookupA name₁ m.parsers with
    | none => simp [stopParser, hp, htask]
    | some p =>
      have hpr : ({ p with is_running := false } : ParserRec) = p := by
        have := hflag p hp
        cases p
        simp_all
      simp [stopParser, hp, hpr, insertA_cancel name₁ p m.parsers hp, htask]
  · simp [get_parser_status, hunreg]

/-- Witness for the amended C8 on a registered-but-never-started source and
an unregistered name. -/
theorem stop_noop_and_status_not_found_witness :
    lookupA "s" (addParser mkManager "s" "u" 1).tasks = none ∧
    (∀ p, lookupA "s" (addParser mkManager "s" "u" 1).parsers = some p →
      p.is_running = false) ∧
    lookupA "ghost" (addParser mkManager "s" "u" 1).parsers = none ∧
    (stopParser (addParser mkManager "s" "u" 1) "s" =
        (addParser mkManager "s" "u" 1, []) ∧
      (get_parser_status (addParser mkManager "s" "u" 1) "ghost").status =
        "not_found") :=
  ⟨rfl,
    fun p hp => by
      have : p = mkParser "s" "u" 1 := by
        have h' : some p = some (mkParser "s" "u" 1) := by rw [← hp]; decide
        exact (Option.some.injEq _ _ ▸ h').symm ▸ rfl
      rw [this]; rfl,
    by decide,
    stop_noop_and_status_not_found (addParser mkManager "s" "u" 1) "s" "ghost"
      rfl
      (fun p hp => by
        have h' : some (mkParser "s" "u" 1) = some p := by rw [← hp]; decide
        rw [← Option.some.injEq _ _ |>.mp h']; rfl)
      (by decide)⟩

end GiftChecker
